import Mathlib

/-!
Shallow embedding of the `read-estimate` CLI tool (src/index.js) and proofs
of the specification claims about it.

The JavaScript source is a single-file pipeline:
  - `SUPPORTED_FORMATS` (src/index.js:16): list of accepted extensions;
  - `getWordCount` (src/index.js:41-69): extracts text (pdf-parse / mammoth /
    textract), counts words via `text.trim().split(/\s+/)`, estimates pages;
  - `getFileStats` (src/index.js:71-87): reading-time minutes
    `Math.ceil(wordCount / WORDS_PER_MINUTE)` and an `HH:MM:00` string;
  - `processFiles` (src/index.js:89-161): path classification, filtering,
    optional `--timesort` sort, totals and table rendering;
  - wpm validation (src/index.js:34-37): exits 1 on invalid `--wpm`.

I/O and the third-party extraction libraries are modelled by an explicit
per-file extraction outcome (`Extracted`); JS numbers are modelled exactly
(Nat / Int / Rat) rather than as floats; JS strings are Lean strings
(whitespace is `Char.isWhitespace`, which agrees with JS `\s` on ASCII).
-/

namespace ReadEstimate

/-! ## JS string primitives used by the source -/

/-- JS `String.prototype.trim` on the character list: drop leading and
trailing whitespace. -/
def trimChars (l : List Char) : List Char :=
  ((l.dropWhile Char.isWhitespace).reverse.dropWhile Char.isWhitespace).reverse

/-- JS `text.trim()` (src/index.js:67). -/
def jsTrim (s : String) : String := ⟨trimChars s.data⟩

/-- Core of JS `String.prototype.split(/\s+/)`: walk the characters,
accumulating the current token in `acc` (reversed); `skipping` records that we
are inside a whitespace run that has already terminated a token.  A run of
whitespace ends the current token; a trailing run contributes a final empty
token, exactly as in JS (`"a ".split(/\s+/)` is `["a", ""]`, and
`"".split(/\s+/)` is `[""]`). -/
def splitWsCore : List Char → List Char → Bool → List (List Char)
  | [], acc, skipping => if skipping then [[]] else [acc.reverse]
  | c :: rest, acc, skipping =>
    if c.isWhitespace then
      if skipping then splitWsCore rest [] true
      else acc.reverse :: splitWsCore rest [] true
    else
      splitWsCore rest (c :: acc) false

/-- JS `s.split(/\s+/)` (src/index.js:67). -/
def jsSplitWs (s : String) : List String :=
  (splitWsCore s.data [] false).map (fun l => String.mk l)

/-- JS `s.padStart(n, c)`: left-pad with `c` up to length `n`
(src/index.js:77). -/
def padStart (s : String) (n : Nat) (c : Char) : String :=
  String.mk (List.replicate (n - s.length) c) ++ s

/-- JS `String.prototype.toLowerCase`, character-wise; `Char.toLower` agrees
with JS on the ASCII range, which covers every extension compared against
`SUPPORTED_FORMATS` (src/index.js:42,98,100). -/
def jsToLower (s : String) : String :=
  String.mk (s.data.map Char.toLower)

/-- JS `String.prototype.toUpperCase`, character-wise, ASCII range
(src/index.js:81). -/
def jsToUpper (s : String) : String :=
  String.mk (s.data.map Char.toUpper)

/-- JS `s.slice(1)`: drop the first character (src/index.js:81). -/
def jsSlice1 (s : String) : String :=
  String.mk (s.data.drop 1)

/-- Node `path.basename`: the part of the path after the last `/`
(src/index.js:80; trailing-separator normalisation is not modelled, no
claim exercises it). -/
def basename (p : String) : String :=
  String.mk ((p.data.reverse.takeWhile (fun c => c ≠ '/')).reverse)

/-- Node `path.extname`: the suffix of the basename from its last `.`,
empty when there is no dot, when the only dot is the leading dot of a
dotfile, or for the special names `.` and `..` (src/index.js:42,81,98,100). -/
def extname (p : String) : String :=
  let b := (basename p).data
  let after := (b.reverse.takeWhile (fun c => c ≠ '.')).reverse
  if b = ['.'] ∨ b = ['.', '.'] then ""
  else if after.length = b.length then ""
  else if b.length = after.length + 1 ∧ b.head? = some '.' then ""
  else String.mk ('.' :: after)

/-! ## Word and page counting (src/index.js:41-69) -/

/-- `SUPPORTED_FORMATS` (src/index.js:16).  Note: `.odt` is NOT in this
list, although src/readme.md lists OpenDocument Text (.odt) as supported. -/
def SUPPORTED_FORMATS : List String :=
  [".pdf", ".txt", ".md", ".docx", ".rtf", ".epub", ".html"]

/-- Outcome of the `try` block of `getWordCount` (src/index.js:46-65) for one
file: the whole block threw (`failed`), the `.pdf` branch succeeded returning
the extracted text and the library-native page count (src/index.js:48-53), or
the `.docx` / default branch succeeded returning extracted text
(src/index.js:54-61). -/
inductive Extracted where
  | failed
  | pdf (text : String) (numpages : Nat)
  | text (t : String)
deriving DecidableEq

/-- Word count of extracted text: `text.trim().split(/\s+/).length`
(src/index.js:67-68). -/
def wordCountOfText (text : String) : Nat :=
  (jsSplitWs (jsTrim text)).length

/-- Page estimate `Math.ceil(text.length / 1781)` (src/index.js:57,61). -/
def pageEstimate (text : String) : Nat :=
  (text.length + 1780) / 1781

/-- `getWordCount` (src/index.js:41-69), with the file system and the
extraction libraries abstracted into the file's `Extracted` outcome: on any
extraction failure returns `(0, 0)` (src/index.js:63-65); otherwise the word
count is `text.trim().split(/\s+/).length` and the page count is the
pdf-native count or the character estimate. -/
def getWordCount (ex : Extracted) : Nat × Nat :=
  match ex with
  | .failed => (0, 0)
  | .pdf text numpages => (wordCountOfText text, numpages)
  | .text t => (wordCountOfText t, pageEstimate t)

/-! ## Per-file stats (src/index.js:71-87) -/

/-- `Math.ceil(wordCount / WORDS_PER_MINUTE)` (src/index.js:73); the wpm rate
is an arbitrary (validated-positive) JS number, modelled as a rational. -/
def readingTimeMinutes (wordCount : Nat) (wpm : ℚ) : ℤ :=
  ⌈(wordCount : ℚ) / wpm⌉

/-- The duration string of src/index.js:75-77:
`hours = Math.floor(m / 60)`, `minutes = m % 60`, both via
`toString().padStart(2, '0')`, seconds always `"00"`.  `Int.fdiv` is JS
`Math.floor` of the true quotient and `Int.tmod` is the JS `%` remainder. -/
def formatDuration (m : ℤ) : String :=
  padStart (Int.repr (Int.fdiv m 60)) 2 '0' ++ ":" ++
    padStart (Int.repr (Int.tmod m 60)) 2 '0' ++ ":00"

/-- The `FileStats` record returned by `getFileStats` (src/index.js:79-86). -/
structure FileStats where
  file : String
  format : String
  wordCount : Nat
  pageCount : Nat
  readingTime : String
  readingTimeMinutes : ℤ
deriving DecidableEq

/-- `getFileStats` (src/index.js:71-87): word/page counts from
`getWordCount`, ceiling reading time, `HH:MM:00` string, basename-only file
name and uppercased extension without the dot. -/
def getFileStats (wpm : ℚ) (filePath : String) (ex : Extracted) : FileStats :=
  let wc := (getWordCount ex).1
  let pc := (getWordCount ex).2
  let m := readingTimeMinutes wc wpm
  { file := basename filePath
    format := jsToUpper (jsSlice1 (extname filePath))
    wordCount := wc
    pageCount := pc
    readingTime := formatDuration m
    readingTimeMinutes := m }

/-! ## The batch pipeline (src/index.js:89-161) -/

/-- `SUPPORTED_FORMATS.includes(path.extname(f).toLowerCase())`
(src/index.js:98,100). -/
def isSupported (name : String) : Bool :=
  SUPPORTED_FORMATS.contains (jsToLower (extname name))

/-- The `--timesort` comparator of src/index.js:114,
`(a, b) => b.readingTimeMinutes - a.readingTimeMinutes`, turned into the
keep-`a`-before-`b` relation of a stable sort (comparator result `≤ 0`):
descending reading-time minutes. -/
def timesortLe (a b : FileStats) : Bool :=
  b.readingTimeMinutes ≤ a.readingTimeMinutes

/-- `results.sort(...)` guarded by `argv.timesort && results.length > 1`
(src/index.js:113-115).  JS `Array.prototype.sort` is a stable sort
(ECMAScript 2019), so it is embedded as the stable `List.mergeSort` with
the comparator's keep-before relation. -/
def sortResults (timesort : Bool) (results : List FileStats) : List FileStats :=
  if timesort ∧ results.length > 1 then results.mergeSort timesortLe
  else results

/-- The totals accumulation of the `forEach` loop (src/index.js:129-142):
`totalPageCount += result.pageCount; totalMinutes += result.readingTimeMinutes`
starting from `(0, 0)`. -/
def totals (results : List FileStats) : Nat × ℤ :=
  results.foldl
    (fun acc r => (acc.1 + r.pageCount, acc.2 + r.readingTimeMinutes)) (0, 0)

/-- The total reading-time string of src/index.js:148-152:
`totalHours = Math.floor(totalMinutes / 60)`,
`remainingMinutes = Math.floor(totalMinutes % 60)` (the outer `Math.floor`
is the identity on a whole number), padded into `HH:MM:00`. -/
def totalReadingTime (totalMinutes : ℤ) : String :=
  padStart (Int.repr (Int.fdiv totalMinutes 60)) 2 '0' ++ ":" ++
    padStart (Int.repr (Int.tmod totalMinutes 60)) 2 '0' ++ ":00"

/-- The summary block (src/index.js:147-157), printed only when
`results.length > 1`: document count, total page count, total reading time. -/
structure Summary where
  documents : Nat
  totalPageCount : Nat
  totalTime : String
deriving DecidableEq

/-- Observable outcome of one run of `processFiles` (src/index.js:89-161).
`fatal` is the catch-all `spinner.fail(error.message)` (src/index.js:158-160),
`noDocuments` the early return of src/index.js:106-109, `report` a printed
table with its rows and optional summary block. -/
inductive RunOutcome where
  | configError
  | fatal (msg : String)
  | noDocuments
  | report (rows : List FileStats) (summary : Option Summary)
deriving DecidableEq

/-- Result of `fs.stat(input)` (src/index.js:93-104): the call rejected
(path missing or inaccessible), the path is a directory with the given
immediate entries (`fs.readdir` is non-recursive), a regular file, or some
other kind of node (neither file nor directory). -/
inductive StatResult where
  | statError (msg : String)
  | directory (entries : List String)
  | file
  | other
deriving DecidableEq

/-- File selection of src/index.js:96-104: a directory keeps exactly its
immediate entries with a supported extension (joined to the input path);
a regular file is kept only if its own extension is supported; anything
else throws `Invalid input...`, caught by the outer catch. -/
def selectFiles (input : String) (st : StatResult) : Except String (List String) :=
  match st with
  | .statError msg => .error msg
  | .directory entries =>
      .ok ((entries.filter (fun f => isSupported f)).map
        (fun f => input ++ "/" ++ f))
  | .file =>
      if isSupported input then .ok [input]
      else .error "Invalid input. Please provide a supported file or directory."
  | .other => .error "Invalid input. Please provide a supported file or directory."

/-- The body of `processFiles` after file selection (src/index.js:106-157):
empty list short-circuits to the no-documents message; otherwise every file
is collected (`Promise.all(files.map(getFileStats))`, src/index.js:111 —
`getWordCount` swallows per-file extraction failures, so every promise
resolves), the optional sort is applied, and the table plus, for more than
one row, the summary block is produced.  `world` gives each file path its
extraction outcome. -/
def reportFiles (wpm : ℚ) (timesort : Bool) (files : List String)
    (world : String → Extracted) : RunOutcome :=
  if files.length = 0 then .noDocuments
  else
    let results := files.map (fun f => getFileStats wpm f (world f))
    let sorted := sortResults timesort results
    .report sorted
      (if sorted.length > 1 then
        some ⟨sorted.length, (totals sorted).1, totalReadingTime (totals sorted).2⟩
      else none)

/-- `processFiles` (src/index.js:89-161). -/
def processFiles (wpm : ℚ) (timesort : Bool) (input : String)
    (st : StatResult) (world : String → Extracted) : RunOutcome :=
  match selectFiles input st with
  | .error msg => .fatal msg
  | .ok files => reportFiles wpm timesort files world

/-- The parsed `--wpm` value: yargs with `type: 'number'` coerces a
non-numeric argument to NaN, otherwise yields a number (src/index.js:19-31). -/
inductive WpmArg where
  | nan
  | num (q : ℚ)
deriving DecidableEq

/-- The wpm validation of src/index.js:34-37:
`isNaN(argv.wpm) || argv.wpm <= 0` causes `process.exit(1)` before any file
processing; otherwise the run proceeds with `WORDS_PER_MINUTE = argv.wpm`. -/
def run (wpm : WpmArg) (timesort : Bool) (input : String)
    (st : StatResult) (world : String → Extracted) : RunOutcome :=
  match wpm with
  | .nan => .configError
  | .num q => if q ≤ 0 then .configError else processFiles q timesort input st world

/-- Process exit status of an outcome: only the wpm validation calls
`process.exit(1)` (src/index.js:36); every other path — including per-file
extraction failures, the no-documents case and the caught fatal errors —
ends with exit code 0. -/
def exitCode : RunOutcome → Nat
  | .configError => 1
  | _ => 0

/-- Whether a table was printed: only the `report` outcome reaches
`console.log(table.toString())` (src/index.js:145). -/
def printsTable : RunOutcome → Bool
  | .report _ _ => true
  | _ => false

/-! ## Spec-side reference definitions

These follow the specification's words (not the source) and are compared
with the source-derived definitions in the refinement theorems. -/

/-- Spec §4.2: the number of maximal non-whitespace runs of a text, counted
by a left-to-right scan that adds one each time a non-whitespace character
starts a new run. -/
def countRunsGo : List Char → Bool → Nat
  | [], _ => 0
  | c :: cs, inRun =>
    if c.isWhitespace then countRunsGo cs false
    else (if inRun then 0 else 1) + countRunsGo cs true

/-- Spec §4.2: number of maximal non-whitespace runs of a string. -/
def maximalNonWsRuns (s : String) : Nat :=
  countRunsGo s.data false

/-- Spec §8: the duration string as the spec words it — hours
`floor(minutes / 60)` zero-padded to at least 2 digits, then
`minutes % 60` zero-padded to 2 digits, then seconds always `"00"`,
with no wrap of the hours at 24. -/
def specDuration (m : ℕ) : String :=
  padStart (Nat.repr (m / 60)) 2 '0' ++ ":" ++
    padStart (Nat.repr (m % 60)) 2 '0' ++ ":00"

/-! ## Word-count lemmas -/

/-- `splitWsCore` never returns an empty token list: JS `split` always
yields at least one element. -/
lemma splitWsCore_length_pos (cs : List Char) :
    ∀ (acc : List Char) (b : Bool), 1 ≤ (splitWsCore cs acc b).length := by
  induction cs with
  | nil =>
    intro acc b
    cases b <;> simp [splitWsCore]
  | cons c rest ih =>
    intro acc b
    by_cases hw : c.isWhitespace
    · cases b
      · simp [splitWsCore, hw]
      · simpa [splitWsCore, hw] using ih [] true
    · cases b
      · simpa [splitWsCore, hw] using ih _ false
      · simpa [splitWsCore, hw] using ih _ false

/-- A list of whitespace characters contains no run. -/
lemma countRunsGo_all_ws (t : List Char) (ht : ∀ c ∈ t, c.isWhitespace) :
    ∀ b, countRunsGo t b = 0 := by
  induction t with
  | nil => intro b; rfl
  | cons c rest ih =>
    intro b
    have hc : c.isWhitespace := ht c (by simp)
    simp only [countRunsGo, hc, if_true]
    exact ih (fun x hx => ht x (by simp [hx])) false

/-- Prepending whitespace does not change the run count when the scan
starts outside a run. -/
lemma countRunsGo_ws_append (t : List Char) (ht : ∀ c ∈ t, c.isWhitespace) :
    ∀ (m : List Char), countRunsGo (t ++ m) false = countRunsGo m false := by
  induction t with
  | nil => intro m; rfl
  | cons c rest ih =>
    intro m
    have hc : c.isWhitespace := ht c (by simp)
    simp only [List.cons_append, countRunsGo, hc, if_true]
    exact ih (fun x hx => ht x (by simp [hx])) m

/-- Appending whitespace does not change the run count. -/
lemma countRunsGo_append_ws (m : List Char) :
    ∀ (t : List Char), (∀ c ∈ t, c.isWhitespace) →
      ∀ b, countRunsGo (m ++ t) b = countRunsGo m b := by
  induction m with
  | nil =>
    intro t ht b
    simpa using countRunsGo_all_ws t ht b
  | cons c rest ih =>
    intro t ht b
    simp only [List.cons_append, countRunsGo, List.append_eq]
    by_cases hc : c.isWhitespace
    · simp only [hc, if_true]
      exact ih t ht false
    · simp only [hc, if_false]
      rw [ih t ht true]
      simp

/-- Decomposition of a character list around its trimmed core: whitespace on
both sides. -/
lemma trimChars_decomp (l : List Char) :
    ∃ t₁ t₂, (∀ c ∈ t₁, c.isWhitespace) ∧ (∀ c ∈ t₂, c.isWhitespace) ∧
      l = t₁ ++ trimChars l ++ t₂ := by
  refine ⟨l.takeWhile Char.isWhitespace,
    ((l.dropWhile Char.isWhitespace).reverse.takeWhile Char.isWhitespace).reverse,
    fun c hc => List.mem_takeWhile_imp hc,
    fun c hc => List.mem_takeWhile_imp (List.mem_reverse.mp hc), ?_⟩
  conv_lhs => rw [← List.takeWhile_append_dropWhile (p := Char.isWhitespace) (l := l)]
  rw [List.append_assoc]
  congr 1
  conv_lhs =>
    rw [← List.reverse_reverse (l.dropWhile Char.isWhitespace),
      ← List.takeWhile_append_dropWhile (p := Char.isWhitespace)
        (l := (l.dropWhile Char.isWhitespace).reverse)]
  rw [List.reverse_append]
  rfl

/-- The run count only depends on the trimmed core of the text. -/
lemma countRuns_trimChars (l : List Char) :
    countRunsGo (trimChars l) false = countRunsGo l false := by
  obtain ⟨t₁, t₂, h₁, h₂, hdec⟩ := trimChars_decomp l
  conv_rhs => rw [hdec, List.append_assoc]
  rw [countRunsGo_ws_append t₁ h₁ (trimChars l ++ t₂),
    countRunsGo_append_ws _ t₂ h₂ false]

/-- If the trimmed core is empty, the whole text is whitespace. -/
lemma all_ws_of_trimChars_nil (l : List Char) (h : trimChars l = []) :
    ∀ c ∈ l, c.isWhitespace := by
  obtain ⟨t₁, t₂, h₁, h₂, hdec⟩ := trimChars_decomp l
  rw [h] at hdec
  intro c hc
  rw [hdec] at hc
  rcases List.mem_append.mp hc with hc' | hc'
  · exact h₁ c (by simpa using hc')
  · exact h₂ c hc'

/-- If the whole text is whitespace, the trimmed core is empty. -/
lemma trimChars_nil_of_all_ws (l : List Char) (h : ∀ c ∈ l, c.isWhitespace) :
    trimChars l = [] := by
  have : l.dropWhile Char.isWhitespace = [] :=
    List.dropWhile_eq_nil_iff.mpr fun c hc => h c hc
  simp [trimChars, this]

/-- The last character of the trimmed core is not whitespace. -/
lemma trimChars_getLast_not_ws (l : List Char) {c : Char}
    (h : (trimChars l).getLast? = some c) : c.isWhitespace = false := by
  unfold trimChars at h
  rw [List.getLast?_reverse] at h
  have h2 := List.head?_dropWhile_not Char.isWhitespace
    (l.dropWhile Char.isWhitespace).reverse
  rw [h] at h2
  exact h2

/-- The first character of the trimmed core is not whitespace. -/
lemma trimChars_head_not_ws (l : List Char) {c : Char} {rest : List Char}
    (h : trimChars l = c :: rest) : c.isWhitespace = false := by
  have hd : (trimChars l).head? = some c := by rw [h]; rfl
  unfold trimChars at hd
  rw [List.head?_reverse] at hd
  have hsplit := List.takeWhile_append_dropWhile
    (p := Char.isWhitespace) (l := (l.dropWhile Char.isWhitespace).reverse)
  have hlast : (l.dropWhile Char.isWhitespace).reverse.getLast? = some c := by
    conv_lhs => rw [← hsplit]
    rw [List.getLast?_append, hd]
    rfl
  rw [List.getLast?_reverse] at hlast
  have h2 := List.head?_dropWhile_not Char.isWhitespace l
  rw [hlast] at h2
  exact h2

/-- On a text whose last character is not whitespace, the JS split produces
one token per maximal non-whitespace run (plus the initial token): the length
of `splitWsCore` expressed through the run count, in both scanner states. -/
lemma splitWsCore_length (cs : List Char)
    (hlast : ∀ c, cs.getLast? = some c → c.isWhitespace = false) :
    (∀ acc, (splitWsCore cs acc false).length = countRunsGo cs true + 1) ∧
    (cs ≠ [] → (splitWsCore cs [] true).length = countRunsGo cs false) := by
  induction cs with
  | nil =>
    refine ⟨fun acc => ?_, fun h => absurd rfl h⟩
    simp [splitWsCore, countRunsGo]
  | cons c rest ih =>
    have hlast' : ∀ x, rest.getLast? = some x → x.isWhitespace = false := by
      intro x hx
      apply hlast
      cases rest with
      | nil => simp at hx
      | cons d ds => rw [List.getLast?_cons_cons]; exact hx
    obtain ⟨ihA, ihB⟩ := ih hlast'
    by_cases hw : c.isWhitespace
    · have hne : rest ≠ [] := by
        intro h
        subst h
        have := hlast c (by simp)
        rw [this] at hw
        exact absurd hw (by simp)
      constructor
      · intro acc
        simp [splitWsCore, countRunsGo, hw, ihB hne]
      · intro _
        simp [splitWsCore, countRunsGo, hw, ihB hne]
    · constructor
      · intro acc
        simp [splitWsCore, countRunsGo, hw, ihA]
      · intro _
        simp [splitWsCore, countRunsGo, hw, ihA]
        omega

/-- The JS word count is always at least one: `split` never yields an empty
array. -/
lemma one_le_wordCountOfText (t : String) : 1 ≤ wordCountOfText t := by
  unfold wordCountOfText jsSplitWs
  rw [List.length_map]
  exact splitWsCore_length_pos _ _ _

/-- Characterisation of the source's word count: a single (empty) token for
empty or whitespace-only text, otherwise exactly the number of maximal
non-whitespace runs. -/
lemma wordCountOfText_eq (text : String) :
    wordCountOfText text =
      if ∀ c ∈ text.data, c.isWhitespace then 1 else maximalNonWsRuns text := by
  unfold wordCountOfText jsSplitWs jsTrim maximalNonWsRuns
  rw [List.length_map]
  by_cases h : ∀ c ∈ text.data, c.isWhitespace
  · rw [if_pos h]
    show (splitWsCore (trimChars text.data) [] false).length = 1
    rw [trimChars_nil_of_all_ws _ h]
    rfl
  · rw [if_neg h]
    have hne : trimChars text.data ≠ [] :=
      fun hnil => h (all_ws_of_trimChars_nil _ hnil)
    have hlast : ∀ c, (trimChars text.data).getLast? = some c →
        c.isWhitespace = false :=
      fun c hc => trimChars_getLast_not_ws _ hc
    show (splitWsCore (trimChars text.data) [] false).length =
      countRunsGo text.data false
    rw [(splitWsCore_length _ hlast).1 [], ← countRuns_trimChars]
    obtain ⟨c, rest, hcons⟩ : ∃ c rest, trimChars text.data = c :: rest := by
      cases hcore : trimChars text.data with
      | nil => exact absurd hcore hne
      | cons c rest => exact ⟨c, rest, rfl⟩
    have hhead := trimChars_head_not_ws text.data hcons
    rw [hcons]
    simp [countRunsGo, hhead]
    omega

/-! ## Duration-formatting lemmas -/

/-- On non-negative minute values the source's formatter coincides with the
spec's formatting rule. -/
lemma formatDuration_natCast (k : ℕ) : formatDuration (k : ℤ) = specDuration k := by
  unfold formatDuration specDuration
  have h60 : (60 : ℤ) = ((60 : ℕ) : ℤ) := by norm_cast
  rw [h60, ← Int.ofNat_fdiv, ← Int.ofNat_tmod]
  rfl

/-! ## Aggregation lemmas -/

/-- The `forEach` accumulation is a pair of sums. -/
lemma totals_eq (results : List FileStats) :
    totals results = ((results.map FileStats.pageCount).sum,
      (results.map FileStats.readingTimeMinutes).sum) := by
  have h : ∀ (l : List FileStats) (p : ℕ) (m : ℤ),
      l.foldl (fun acc r => (acc.1 + r.pageCount, acc.2 + r.readingTimeMinutes))
          (p, m) =
        (p + (l.map FileStats.pageCount).sum,
          m + (l.map FileStats.readingTimeMinutes).sum) := by
    intro l
    induction l with
    | nil => intro p m; simp
    | cons x xs ih =>
      intro p m
      simp only [List.foldl_cons, List.map_cons, List.sum_cons, ih]
      simp [add_assoc]
  simpa using h results 0 0

/-! ## Sorting lemmas -/

/-- The timesort comparator relation is transitive. -/
lemma timesortLe_trans :
    ∀ a b c : FileStats, timesortLe a b → timesortLe b c → timesortLe a c := by
  intro a b c hab hbc
  simp only [timesortLe, decide_eq_true_eq] at *
  omega

/-- The timesort comparator relation is total. -/
lemma timesortLe_total : ∀ a b : FileStats, timesortLe a b || timesortLe b a := by
  intro a b
  simp only [timesortLe, Bool.or_eq_true, decide_eq_true_eq]
  omega

/-- Sorting permutes the results; no row is lost or duplicated. -/
lemma sortResults_perm (t : Bool) (rs : List FileStats) :
    List.Perm (sortResults t rs) rs := by
  unfold sortResults
  split
  · exact List.mergeSort_perm rs timesortLe
  · exact List.Perm.refl rs

/-- Sorting preserves the number of rows. -/
lemma length_sortResults (t : Bool) (rs : List FileStats) :
    (sortResults t rs).length = rs.length :=
  (sortResults_perm t rs).length_eq

/-- The sorted output is pairwise non-increasing on reading-time minutes. -/
lemma sorted_mergeSort_minutes (rs : List FileStats) :
    (rs.mergeSort timesortLe).Pairwise
      (fun a b => b.readingTimeMinutes ≤ a.readingTimeMinutes) := by
  have h := List.sorted_mergeSort timesortLe_trans timesortLe_total rs
  exact h.imp fun hab => by simpa [timesortLe] using hab

/-- Stability: the rows holding any fixed reading-time key keep their
relative input order through the sort. -/
lemma filter_key_sortResults (t : Bool) (rs : List FileStats) (k : ℤ) :
    (sortResults t rs).filter (fun x => decide (x.readingTimeMinutes = k)) =
      rs.filter (fun x => decide (x.readingTimeMinutes = k)) := by
  unfold sortResults
  split
  · set p := fun x : FileStats => decide (x.readingTimeMinutes = k) with hp
    have hmem : ∀ a ∈ rs.filter p, p a := fun a ha => List.of_mem_filter ha
    have hpair : (rs.filter p).Pairwise (fun a b => timesortLe a b) := by
      apply List.pairwise_of_forall_mem_list
      intro a ha b hb
      have ha' := List.of_mem_filter ha
      have hb' := List.of_mem_filter hb
      simp only [hp, decide_eq_true_eq] at ha' hb'
      simp [timesortLe, ha', hb']
    have hsub : List.Sublist (rs.filter p) (rs.mergeSort timesortLe) :=
      List.sublist_mergeSort timesortLe_trans timesortLe_total hpair
        (List.filter_sublist rs)
    have hsub2 : List.Sublist (rs.filter p) ((rs.mergeSort timesortLe).filter p) := by
      have h2 := hsub.filter p
      rwa [List.filter_eq_self.mpr hmem] at h2
    have hlen : ((rs.mergeSort timesortLe).filter p).length = (rs.filter p).length :=
      ((List.mergeSort_perm rs timesortLe).filter p).length_eq
    exact (hsub2.eq_of_length hlen.symm).symm
  · rfl

/-- A list already sorted by descending minutes is left unchanged. -/
lemma sortResults_of_sorted (t : Bool) (rs : List FileStats)
    (h : rs.Pairwise fun a b => b.readingTimeMinutes ≤ a.readingTimeMinutes) :
    sortResults t rs = rs := by
  unfold sortResults
  split
  · exact List.mergeSort_of_sorted
      (h.imp fun hab => by simpa [timesortLe] using hab)
  · rfl

/-! ## The claims -/

/-- C1: if text extraction fails for a file, the per-file collector returns a
zero-valued result (word count 0, page count 0, reading time minutes 0 with
time string `00:00:00`) instead of propagating the failure; the batch over
the remaining files still completes (one report row per input file, every
file's stats present), and the failed file still appears in the report. -/
theorem c1_extraction_failure_zeroed (r : ℚ) (timesort : Bool)
    (files : List String) (world : String → Extracted) :
    (∀ p, (getFileStats r p Extracted.failed).wordCount = 0 ∧
      (getFileStats r p Extracted.failed).pageCount = 0 ∧
      (getFileStats r p Extracted.failed).readingTimeMinutes = 0 ∧
      (getFileStats r p Extracted.failed).readingTime = "00:00:00") ∧
    (files ≠ [] → ∃ rows summary,
      reportFiles r timesort files world = RunOutcome.report rows summary ∧
      rows.length = files.length ∧
      ∀ p ∈ files, getFileStats r p (world p) ∈ rows) := by
  have hzero : readingTimeMinutes 0 r = 0 := by
    simp [readingTimeMinutes]
  constructor
  · intro p
    refine ⟨rfl, rfl, ?_, ?_⟩
    · simpa [getFileStats, getWordCount] using hzero
    · show formatDuration (readingTimeMinutes (getWordCount Extracted.failed).1 r) = _
      rw [show (getWordCount Extracted.failed).1 = 0 from rfl, hzero]
      rfl
  · intro hne
    unfold reportFiles
    rw [if_neg (by simpa using hne)]
    refine ⟨_, _, rfl, ?_, ?_⟩
    · rw [length_sortResults, List.length_map]
    · intro p hp
      exact (sortResults_perm timesort _).mem_iff.mpr
        (List.mem_map_of_mem _ hp)

/-- C1 witness: a batch with one unreadable file and one readable file still
reports both rows, the unreadable one zero-valued. -/
theorem c1_witness :
    ∃ rows summary,
      reportFiles 200 false ["bad.pdf", "good.txt"]
          (fun p => if p = "bad.pdf" then Extracted.failed
            else Extracted.text "one two") =
        RunOutcome.report rows summary ∧
      rows.length = 2 ∧
      ∀ p ∈ ["bad.pdf", "good.txt"],
        getFileStats 200 p
            ((fun p => if p = "bad.pdf" then Extracted.failed
              else Extracted.text "one two") p) ∈ rows := by
  have h := (c1_extraction_failure_zeroed 200 false ["bad.pdf", "good.txt"]
    (fun p => if p = "bad.pdf" then Extracted.failed
      else Extracted.text "one two")).2 (by simp)
  simpa using h

/-- C2 counterexample: extraction succeeding with empty text yields a word
count of 1 (the single empty token of the JS split), not 0 as claimed. -/
theorem c2_counterexample :
    (getWordCount (Extracted.text "")).1 = 1 ∧
    ¬((getWordCount (Extracted.text "")).1 = 0) := by
  decide

/-- C2 (amended): for every file whose extracted text is empty or consists
only of whitespace, the computed word count is 1 (JS `"".split(/\s+/)` yields
one empty token); for every non-empty whitespace-separated text, the word
count equals the number of maximal non-whitespace runs. -/
theorem c2_word_count (text : String) :
    (getWordCount (Extracted.text text)).1 = wordCountOfText text ∧
    wordCountOfText text =
      if ∀ c ∈ text.data, c.isWhitespace then 1 else maximalNonWsRuns text :=
  ⟨rfl, wordCountOfText_eq text⟩

/-- C3: the code contradicts its own readme — `SUPPORTED_FORMATS` omits
`.odt`, so an `.odt` file (in any letter case) is rejected as a single input
and silently skipped in a directory, although src/readme.md lists
OpenDocument Text (.odt) as a supported format. -/
theorem c3_odt_not_supported :
    SUPPORTED_FORMATS.contains ".odt" = false ∧
    isSupported "book.odt" = false ∧
    isSupported "BOOK.ODT" = false ∧
    selectFiles "book.odt" StatResult.file =
      Except.error "Invalid input. Please provide a supported file or directory." ∧
    (["a.odt", "b.txt"].filter fun f => isSupported f) = ["b.txt"] := by
  refine ⟨by decide, by decide, by decide, ?_, by decide⟩
  rfl

/-- C4: for every word count and positive rate, the per-file reading-time
minutes is `ceil(w / r)`; the duration string follows the spec's rule —
hours `floor(m/60)` zero-padded to at least 2 digits, minutes `m % 60`
zero-padded, seconds always `00` — and the hours component is unbounded
(100 hours renders as `100:00:00`, not wrapped at 24). -/
theorem c4_duration (w : ℕ) (r : ℚ) (hr : 0 < r) :
    readingTimeMinutes w r = ⌈(w : ℚ) / r⌉ ∧
    0 ≤ readingTimeMinutes w r ∧
    formatDuration (readingTimeMinutes w r) =
      specDuration (readingTimeMinutes w r).toNat ∧
    (∀ (p : String) (ex : Extracted),
      (getFileStats r p ex).readingTime =
        formatDuration ((getFileStats r p ex).readingTimeMinutes)) ∧
    formatDuration 6000 = "100:00:00" := by
  have hnn : 0 ≤ readingTimeMinutes w r :=
    Int.ceil_nonneg (div_nonneg (Nat.cast_nonneg w) hr.le)
  refine ⟨rfl, hnn, ?_, fun p ex => rfl, by decide⟩
  rw [← formatDuration_natCast, Int.toNat_of_nonneg hnn]

/-- C4 witness: 12000 words at 2 words per minute is 6000 minutes, i.e. 100
hours, formatted unwrapped. -/
theorem c4_witness :
    (0 : ℚ) < 2 ∧
    (readingTimeMinutes 12000 2 = ⌈(12000 : ℚ) / 2⌉ ∧
      0 ≤ readingTimeMinutes 12000 2 ∧
      formatDuration (readingTimeMinutes 12000 2) =
        specDuration (readingTimeMinutes 12000 2).toNat ∧
      (∀ (p : String) (ex : Extracted),
        (getFileStats 2 p ex).readingTime =
          formatDuration ((getFileStats 2 p ex).readingTimeMinutes)) ∧
      formatDuration 6000 = "100:00:00") :=
  ⟨by norm_num, c4_duration 12000 2 (by norm_num)⟩

/-- C5: the aggregate totals are the sums of the per-file results — total
page count the sum of page counts, total minutes the sum of the
already-ceiling-rounded per-file minutes — and the total reading time string
applies the same `HH:MM:00` rule to that summed value; summation of rounded
minutes genuinely differs from re-rounding summed word counts (two 100-word
files at 200 wpm total 2 minutes, not 1). -/
theorem c5_totals (results : List FileStats) (r : ℚ) (p : String)
    (ex : Extracted) :
    (totals results).1 = (results.map FileStats.pageCount).sum ∧
    (totals results).2 = (results.map FileStats.readingTimeMinutes).sum ∧
    totalReadingTime (totals results).2 = formatDuration (totals results).2 ∧
    (getFileStats r p ex).readingTimeMinutes =
      readingTimeMinutes (getWordCount ex).1 r ∧
    (readingTimeMinutes 100 200 + readingTimeMinutes 100 200 = 2 ∧
      readingTimeMinutes (100 + 100) 200 = 1) := by
  refine ⟨?_, ?_, rfl, rfl, ?_, ?_⟩
  · rw [totals_eq]
  · rw [totals_eq]
  · have h1 : readingTimeMinutes 100 200 = 1 := by
      rw [readingTimeMinutes, Int.ceil_eq_iff]
      norm_num
    rw [h1]
    norm_num
  · rw [readingTimeMinutes, Int.ceil_eq_iff]
    norm_num

/-- C6: with the sort option set and more than one result, the output is
non-increasing on reading-time minutes; the sort is stable (rows with any
fixed minute value keep their input order); re-sorting an
already-descending list returns it unchanged; and without the option (or
with at most one result) the input order is preserved. -/
theorem c6_sort (timesort : Bool) (results : List FileStats) :
    (timesort = true → 1 < results.length →
      (sortResults timesort results).Pairwise
        (fun a b => b.readingTimeMinutes ≤ a.readingTimeMinutes)) ∧
    (∀ k : ℤ, (sortResults timesort results).filter
        (fun x => decide (x.readingTimeMinutes = k)) =
      results.filter fun x => decide (x.readingTimeMinutes = k)) ∧
    (results.Pairwise (fun a b => b.readingTimeMinutes ≤ a.readingTimeMinutes) →
      sortResults timesort results = results) ∧
    (timesort = false ∨ results.length ≤ 1 →
      sortResults timesort results = results) := by
  refine ⟨?_, filter_key_sortResults timesort results,
    sortResults_of_sorted timesort results, ?_⟩
  · intro ht hlen
    unfold sortResults
    rw [if_pos ⟨ht, hlen⟩]
    exact sorted_mergeSort_minutes results
  · intro h
    unfold sortResults
    rw [if_neg]
    rcases h with h | h
    · exact fun hc => by rw [h] at hc; exact absurd hc.1 (by simp)
    · exact fun hc => absurd hc.2 (by omega)

/-- C6 witness: a two-row batch sorts descending, and the sorted order is a
fixed point of the sort. -/
theorem c6_witness :
    (sortResults true
        [⟨"a.txt", "TXT", 400, 1, "00:02:00", 2⟩,
          ⟨"b.txt", "TXT", 100, 1, "00:01:00", 1⟩]).Pairwise
      (fun a b => b.readingTimeMinutes ≤ a.readingTimeMinutes) ∧
    sortResults true
        [⟨"a.txt", "TXT", 400, 1, "00:02:00", 2⟩,
          ⟨"b.txt", "TXT", 100, 1, "00:01:00", 1⟩] =
      [⟨"a.txt", "TXT", 400, 1, "00:02:00", 2⟩,
        ⟨"b.txt", "TXT", 100, 1, "00:01:00", 1⟩] :=
  ⟨(c6_sort true _).1 rfl (by decide),
    (c6_sort true
      [⟨"a.txt", "TXT", 400, 1, "00:02:00", 2⟩,
        ⟨"b.txt", "TXT", 100, 1, "00:01:00", 1⟩]).2.2.1 (by decide)⟩

/-- C7: a regular-file root is included only when its extension is
supported and otherwise the run fails with the unsupported-input error; a
directory keeps exactly its immediate entries with supported extensions
(unsupported ones silently skipped); an empty resulting list yields the
no-documents outcome, which exits with code 0 rather than an error. -/
theorem c7_path_classification (r : ℚ) (timesort : Bool) (input : String)
    (entries : List String) (world : String → Extracted) :
    (isSupported input = true →
      selectFiles input StatResult.file = Except.ok [input]) ∧
    (isSupported input = false →
      processFiles r timesort input StatResult.file world =
        RunOutcome.fatal
          "Invalid input. Please provide a supported file or directory.") ∧
    (selectFiles input (StatResult.directory entries) =
      Except.ok ((entries.filter fun f => isSupported f).map
        fun f => input ++ "/" ++ f)) ∧
    (∀ f, f ∈ entries.filter (fun f => isSupported f) ↔
      f ∈ entries ∧ isSupported f = true) ∧
    ((entries.filter fun f => isSupported f) = [] →
      processFiles r timesort input (StatResult.directory entries) world =
        RunOutcome.noDocuments ∧
      exitCode (processFiles r timesort input (StatResult.directory entries)
        world) = 0) := by
  refine ⟨?_, ?_, rfl, ?_, ?_⟩
  · intro h
    simp [selectFiles, h]
  · intro h
    simp [processFiles, selectFiles, h]
  · intro f
    simp [List.mem_filter]
  · intro h
    have hout : processFiles r timesort input (StatResult.directory entries)
        world = RunOutcome.noDocuments := by
      simp [processFiles, selectFiles, reportFiles, h]
    exact ⟨hout, by rw [hout]; rfl⟩

/-- C7 witness: a supported single file is accepted, an unsupported one is a
fatal invalid-input error, a mixed directory keeps only the supported entry,
and a directory with no supported entry reports no documents with exit
code 0. -/
theorem c7_witness :
    selectFiles "book.txt" StatResult.file = Except.ok ["book.txt"] ∧
    processFiles 200 false "book.exe" StatResult.file
        (fun _ => Extracted.text "x") =
      RunOutcome.fatal
        "Invalid input. Please provide a supported file or directory." ∧
    selectFiles "docs" (StatResult.directory ["good.pdf", "skip.xyz"]) =
      Except.ok ["docs/good.pdf"] ∧
    processFiles 200 false "docs" (StatResult.directory ["skip.xyz"])
        (fun _ => Extracted.text "x") =
      RunOutcome.noDocuments := by
  refine ⟨(c7_path_classification 200 false "book.txt" []
      (fun _ => Extracted.text "x")).1 (by decide),
    (c7_path_classification 200 false "book.exe" []
      (fun _ => Extracted.text "x")).2.1 (by decide),
    ?_, ((c7_path_classification 200 false "docs" ["skip.xyz"]
      (fun _ => Extracted.text "x")).2.2.2.2 (by decide)).1⟩
  rw [(c7_path_classification 200 false "docs" ["good.pdf", "skip.xyz"]
    (fun _ => Extracted.text "x")).2.2.1]
  rfl

/-- C8: any `--wpm` value that is not a positive number (NaN from a
non-numeric argument, zero, or negative) terminates the run with exit
status 1 before any file processing — the outcome is the configuration
error regardless of the input path, its stat result or any extraction
outcome — and no table is printed. -/
theorem c8_invalid_wpm (w : WpmArg) (timesort : Bool) (input : String)
    (st : StatResult) (world : String → Extracted)
    (h : ∀ q, w = WpmArg.num q → q ≤ 0) :
    run w timesort input st world = RunOutcome.configError ∧
    exitCode (run w timesort input st world) = 1 ∧
    printsTable (run w timesort input st world) = false := by
  cases w with
  | nan => exact ⟨rfl, rfl, rfl⟩
  | num q =>
    have hq : q ≤ 0 := h q rfl
    have hrun : run (WpmArg.num q) timesort input st world =
        RunOutcome.configError := by
      simp [run, hq]
    exact ⟨hrun, by rw [hrun]; rfl, by rw [hrun]; rfl⟩

/-- C8 witness: scenario D, `--wpm -5`. -/
theorem c8_witness :
    run (WpmArg.num (-5)) false "." StatResult.file
        (fun _ => Extracted.text "x") = RunOutcome.configError ∧
    exitCode (run (WpmArg.num (-5)) false "." StatResult.file
      (fun _ => Extracted.text "x")) = 1 ∧
    printsTable (run (WpmArg.num (-5)) false "." StatResult.file
      (fun _ => Extracted.text "x")) = false :=
  c8_invalid_wpm (WpmArg.num (-5)) false "." StatResult.file
    (fun _ => Extracted.text "x") (fun q hq => by cases hq; norm_num)

/-- C9: whenever extraction succeeds the word count is at least 1 — even for
empty or whitespace-only text — so a zero word count occurs exactly when
extraction failed for that file. -/
theorem c9_zero_iff_failed (ex : Extracted) :
    (ex ≠ Extracted.failed → 1 ≤ (getWordCount ex).1) ∧
    ((getWordCount ex).1 = 0 ↔ ex = Extracted.failed) := by
  cases ex with
  | failed => exact ⟨fun h => absurd rfl h, by simp [getWordCount]⟩
  | pdf t n =>
    refine ⟨fun _ => one_le_wordCountOfText t, ?_, fun h => by cases h⟩
    intro h
    have := one_le_wordCountOfText t
    simp only [getWordCount] at h
    omega
  | text t =>
    refine ⟨fun _ => one_le_wordCountOfText t, ?_, fun h => by cases h⟩
    intro h
    have := one_le_wordCountOfText t
    simp only [getWordCount] at h
    omega

/-- C9 witness: successful extraction of empty text still counts one word,
and the failed outcome is exactly the zero-count case. -/
theorem c9_witness :
    1 ≤ (getWordCount (Extracted.text "")).1 ∧
    ((getWordCount Extracted.failed).1 = 0 ↔
      Extracted.failed = Extracted.failed) :=
  ⟨(c9_zero_iff_failed (Extracted.text "")).1 (by simp),
    (c9_zero_iff_failed Extracted.failed).2⟩

/-- C10: for a fixed positive rate, reading-time minutes is monotone
non-decreasing in the word count. -/
theorem c10_monotone (w1 w2 : ℕ) (r : ℚ) (hr : 0 < r) (h : w1 ≤ w2) :
    readingTimeMinutes w1 r ≤ readingTimeMinutes w2 r := by
  unfold readingTimeMinutes
  apply Int.ceil_le_ceil
  gcongr

/-- C10 witness: 1 word takes no longer than 5 words at 200 wpm. -/
theorem c10_witness :
    (0 : ℚ) < 200 ∧ 1 ≤ 5 ∧
    readingTimeMinutes 1 200 ≤ readingTimeMinutes 5 200 :=
  ⟨by norm_num, by norm_num, c10_monotone 1 5 200 (by norm_num) (by norm_num)⟩

end ReadEstimate
